import Mathlib

/-!
Verification of the data-preparation and metric-derivation pipeline of
`src/dashboard/dashboard_ecommerce.py` (a Streamlit e-commerce dashboard).

Timestamps are embedded as seconds since an arbitrary epoch (`Int`), a missing
timestamp (pandas `NaT`) as `none`.  The pandas accessor `.dt.days` on a
`Timedelta` floors toward negative infinity, which is `Int.fdiv` by 86400.
Monetary values are embedded as `Rat`.  A pandas `DataFrame` of the joined
dataset is a `List Row`; the derived columns the script assigns into
`df_filtered` (`order_purchase_hour`, `shipping_time`, `delivery_delay`,
`delivery_category`) are optional fields of `Row`, absent (`none`) until the
corresponding script step writes them.

Row order of group-by results is abstracted as first-encounter key order
(pandas sorts group keys; no claim below depends on the key order of a
group-by result).  `value_counts` is embedded with its documented order:
counts descending, ties in order of first appearance.
-/

namespace Dashboard

/-- Seconds in one day; pandas `Timedelta(days=1)` in our seconds embedding. -/
def secPerDay : Int := 86400

/-- Pandas `Timedelta.dt.days`: whole days of a signed duration in seconds,
floored toward negative infinity (pandas stores `days` as floor division). -/
def dtDays (td : Int) : Int := Int.fdiv td secPerDay

/-- Pandas `Series.dt.date` for our seconds embedding: the calendar day number
of a timestamp (floor of seconds over one day). -/
def dtDate (ts : Int) : Int := Int.fdiv ts secPerDay

/-- Pandas `Series.dt.hour`: hour-of-day (0–23) of a timestamp. -/
def dtHour (ts : Int) : Int := Int.fdiv (Int.emod ts secPerDay) 3600

/-- One row of `final_dataset` as the derivations consume it, with the source's
column names.  `Option` marks nullable columns (`NaT` / `<NA>` / `NaN`).
The last four fields are the columns the script later assigns into
`df_filtered`; they default to `none` (absent) before the writing step runs. -/
structure Row where
  order_id : String
  customer_id : String
  customer_state_y : String
  customer_city_x : String
  customer_city_y : String
  seller_city : String
  product_category_name : Option String
  product_category_name_english : Option String
  order_status_x : String
  payment_type : String
  price : Rat
  review_score : Option Int
  order_purchase_timestamp : Option Int
  order_delivered_carrier_date : Option Int
  order_delivered_customer_date : Option Int
  order_estimated_delivery_date : Option Int
  geolocation_lat : Rat
  geolocation_lng : Rat
  order_purchase_hour : Option Int := none
  shipping_time : Option Int := none
  delivery_delay : Option Int := none
  delivery_category : Option String := none
deriving DecidableEq

/-- A pandas `DataFrame` of order records. -/
abbrev Table := List Row

/-- Worker for `dedupFirst`: emit each value whose first occurrence this is,
tracking the already-seen values. -/
def dedupFirstAux {α : Type} [DecidableEq α] (seen : List α) : List α → List α
  | [] => []
  | x :: xs =>
    if x ∈ seen then dedupFirstAux seen xs
    else x :: dedupFirstAux (x :: seen) xs

/-- Distinct values of a list in order of first appearance — pandas
`Series.unique` and the key set of a hash-based group-by. -/
def dedupFirst {α : Type} [DecidableEq α] (l : List α) : List α :=
  dedupFirstAux [] l

/-- Pandas `Series.nunique`: number of distinct values. -/
def nunique {α : Type} [DecidableEq α] (l : List α) : Nat :=
  (dedupFirst l).length

/-- Pandas `Series.mean` over integer scores with `skipna` already applied:
`none` (NaN) on an empty list, otherwise the exact rational mean. -/
def meanInt (xs : List Int) : Option Rat :=
  if xs.isEmpty then none else some ((xs.map (fun x => (x : Rat))).sum / (xs.length : Rat))

/-- Insert a `(value, count)` pair into a count-descending list, after every
pair of count ≥ its own (so repeated insertion in list order is stable). -/
def insertCountDesc {α : Type} (x : α × Nat) : List (α × Nat) → List (α × Nat)
  | [] => [x]
  | y :: ys => if x.2 ≤ y.2 then y :: insertCountDesc x ys else x :: y :: ys

/-- Stable sort by count descending (ties keep list order). -/
def sortCountDesc {α : Type} (l : List (α × Nat)) : List (α × Nat) :=
  l.foldl (fun acc x => insertCountDesc x acc) []

/-- Pandas `Series.value_counts()`: occurrence counts of the non-null values,
count descending, ties in order of first appearance. -/
def value_counts {α : Type} [DecidableEq α] (vals : List (Option α)) : List (α × Nat) :=
  let present := vals.filterMap id
  sortCountDesc ((dedupFirst present).map (fun k => (k, present.count k)))

/-! ## Schema Normalizer (`load_data`, lines 26–29)

The four nullable-integer columns are converted with
`df[col].astype('Int64')`.  A raw CSV cell is `Option String` (`none` for a
missing cell).  Pandas `astype('Int64')` turns a missing cell into `<NA>` and
parses an integer literal, but it is a strict cast: a cell that does not parse
as an integer raises (`ValueError`), unlike `to_numeric(errors='coerce')`. -/

/-- Value of a decimal digit character, `none` for a non-digit. -/
def digitVal? (c : Char) : Option Nat :=
  if c.isDigit then some (c.toNat - '0'.toNat) else none

/-- Parse a non-empty run of decimal digits into a number; `none` as soon as a
non-digit appears. -/
def parseNatAux (acc : Nat) : List Char → Option Nat
  | [] => some acc
  | c :: cs =>
    match digitVal? c with
    | some d => parseNatAux (acc * 10 + d) cs
    | none => none

/-- Integer-literal parsing as CPython's `int(str)` accepts it (optional sign,
decimal digits) — what pandas' Int64 cast applies to a string cell. -/
def parseIntToken (s : String) : Option Int :=
  match s.data with
  | [] => none
  | '-' :: cs =>
    if cs.isEmpty then none else (parseNatAux 0 cs).map (fun n => -(n : Int))
  | cs => (parseNatAux 0 cs).map (fun n => (n : Int))

/-- One cell of `astype('Int64')`: missing becomes null, an integer literal is
parsed, anything else raises carrying the offending cell. -/
def astypeInt64Cell (cell : Option String) : Except String (Option Int) :=
  match cell with
  | none => .ok none
  | some s =>
    match parseIntToken s with
    | some n => .ok (some n)
    | none => .error s

/-- Column-level `astype('Int64')`: converts cell by cell, propagating the
first raise. -/
def astypeInt64 : List (Option String) → Except String (List (Option Int))
  | [] => .ok []
  | c :: cs =>
    match astypeInt64Cell c with
    | .error e => .error e
    | .ok v =>
      match astypeInt64 cs with
      | .error e => .error e
      | .ok vs => .ok (v :: vs)

/-! ## Filter Engine (line 51)

`df_filtered = final_dataset[final_dataset['customer_state_y'].isin(state_filter)]`. -/

/-- Row subset whose value in a column (here a projection of `Row`) lies in the
allowed set; row order preserved, no deduplication. -/
def filterEngine {α : Type} [DecidableEq α] (t : Table) (col : Row → α)
    (allowed : List α) : Table :=
  t.filter (fun r => col r ∈ allowed)

/-- The script's one filter: by `customer_state_y` against the multiselect. -/
def df_filtered (t : Table) (state_filter : List String) : Table :=
  filterEngine t (fun r => r.customer_state_y) state_filter

/-! ## Metric Derivation Pipeline -/

/-- `total_orders = df_filtered['order_id'].nunique()` (line 66). -/
def total_orders (t : Table) : Nat :=
  nunique (t.map (fun r => r.order_id))

/-- `total_revenue = df_filtered['price'].sum()` (line 67): over all rows, not
per distinct order. -/
def total_revenue (t : Table) : Rat :=
  (t.map (fun r => r.price)).sum

/-- Calendar day of the purchase timestamp (`.dt.date`); `none` for `NaT`. -/
def purchaseDate (r : Row) : Option Int :=
  r.order_purchase_timestamp.map dtDate

/-- Rows of the group of one group-by key (pandas gathers the rows whose key
equals `k`; `none` keys — `NaN`/`NaT` — belong to no group). -/
def groupRows {κ : Type} [DecidableEq κ] (t : Table) (key : Row → Option κ)
    (k : κ) : Table :=
  t.filter (fun r => key r = some k)

/-- `daily_orders` (line 83): group by purchase date, distinct-count of
`order_id` per date. -/
def daily_orders (t : Table) : List (Int × Nat) :=
  (dedupFirst (t.filterMap purchaseDate)).map
    (fun d => (d, nunique ((groupRows t purchaseDate d).map (fun r => r.order_id))))

/-- `daily_revenue` (lines 97–100): group by purchase date, sum of price and
distinct-count of `order_id`. -/
def daily_revenue (t : Table) : List (Int × Rat × Nat) :=
  (dedupFirst (t.filterMap purchaseDate)).map
    (fun d =>
      let g := groupRows t purchaseDate d
      (d, (g.map (fun r => r.price)).sum, nunique (g.map (fun r => r.order_id))))

/-- Generic Top-N Frequency: `df_filtered[col].value_counts().head(N)`. -/
def top_counts {α : Type} [DecidableEq α] (t : Table) (col : Row → Option α)
    (n : Nat) : List (α × Nat) :=
  (value_counts (t.map col)).take n

/-- `top10_product_categories` (line 153). -/
def top10_product_categories (t : Table) : List (String × Nat) :=
  top_counts t (fun r => r.product_category_name) 10

/-- `top10_seller_cities` (line 213). -/
def top10_seller_cities (t : Table) : List (String × Nat) :=
  top_counts t (fun r => r.seller_city) 10

/-- Line 258: `df_filtered['order_purchase_hour'] = df_filtered['order_purchase_timestamp'].dt.hour`
— a column assignment into the shared filtered table. -/
def purchase_hour_step (t : Table) : Table :=
  t.map (fun r => { r with order_purchase_hour := r.order_purchase_timestamp.map dtHour })

/-- Per-row value of line 272:
`(order_delivered_customer_date - order_delivered_carrier_date).dt.days` —
customer-delivered minus carrier-delivered, in floored whole days; `none` when
either date is `NaT`. -/
def shipping_time_val (r : Row) : Option Int :=
  match r.order_delivered_customer_date, r.order_delivered_carrier_date with
  | some c, some k => some (dtDays (c - k))
  | _, _ => none

/-- Line 272: assignment of the `shipping_time` column into the shared
filtered table. -/
def shipping_time_step (t : Table) : Table :=
  t.map (fun r => { r with shipping_time := shipping_time_val r })

/-- Per-row value of line 388:
`(order_delivered_customer_date - order_estimated_delivery_date).dt.days`. -/
def delivery_delay_val (r : Row) : Option Int :=
  match r.order_delivered_customer_date, r.order_estimated_delivery_date with
  | some c, some e => some (dtDays (c - e))
  | _, _ => none

/-- The fixed label set of `pd.cut` (line 396, `choices`). -/
def deliveryLabels : List String :=
  ["On Time", "Delayed 1-2 Days", "Delayed More Than 2 Days"]

/-- Lines 397–401: `pd.cut(delay, bins=[-inf, 0, 2, inf], labels=choices)` with
right-closed bins: delay in (−inf, 0] ↦ On Time, (0, 2] ↦ Delayed 1-2 Days,
(2, inf) ↦ Delayed More Than 2 Days; a null delay gets a null category. -/
def cutDeliveryCategory (d : Option Int) : Option String :=
  d.map (fun v =>
    if v ≤ 0 then "On Time"
    else if v ≤ 2 then "Delayed 1-2 Days"
    else "Delayed More Than 2 Days")

/-- Lines 388–401: assignment of the `delivery_delay` and `delivery_category`
columns into the shared filtered table (the re-`to_datetime` of lines 384–385
on already-typed columns is the identity in this embedding). -/
def advanced_step (t : Table) : Table :=
  t.map (fun r =>
    let d := delivery_delay_val r
    { r with delivery_delay := d, delivery_category := cutDeliveryCategory d })

/-- Line 404: `df_filtered.groupby('delivery_category')['review_score'].mean()`.
The grouping column is the categorical produced by `pd.cut`, and pandas
group-by defaults to `observed=False` on a categorical: the result has one row
per category label of the dtype — observed in the data or not — while rows
whose category is null are dropped.  An unobserved label yields the mean of no
rows, i.e. `NaN` (`none`). -/
def average_review_scores (t : Table) : List (String × Option Rat) :=
  deliveryLabels.map (fun lab =>
    (lab, meanInt ((t.filter (fun r => r.delivery_category = some lab)).filterMap
      (fun r => r.review_score))))

/-- Lines 417–418: filter to non-null review scores, group by
`(order_status_x, payment_type)` — object-dtype keys, so only keys present in
the data form groups — and take the mean review score per group. -/
def review_summary (t : Table) : List (String × String × Option Rat) :=
  let nn := t.filter (fun r => r.review_score ≠ none)
  (dedupFirst (nn.map (fun r => (r.order_status_x, r.payment_type)))).map
    (fun k =>
      (k.1, k.2, meanInt ((nn.filter
        (fun r => r.order_status_x = k.1 ∧ r.payment_type = k.2)).filterMap
        (fun r => r.review_score))))

/-- Lines 294–306: the RFM result, one record per distinct `customer_id`. -/
structure RFMRow where
  customer_id : String
  recency : Option Int
  frequency : Nat
  monetary : Rat
deriving DecidableEq

/-- RFM (lines 291–306): per customer, Recency = `(now − max purchase).dt.days`
(null when the customer has no parsed purchase timestamp, since group-by `max`
skips `NaT`), Frequency = distinct `order_id` count, Monetary = sum of price;
the three group-bys share the key set, so the merges pair them per customer. -/
def rfm (now : Int) (t : Table) : List RFMRow :=
  (dedupFirst (t.map (fun r => r.customer_id))).map (fun c =>
    let rows := t.filter (fun r => r.customer_id = c)
    { customer_id := c
      recency := (rows.filterMap (fun r => r.order_purchase_timestamp)).max?.map
        (fun m => dtDays (now - m))
      frequency := nunique (rows.map (fun r => r.order_id))
      monetary := (rows.map (fun r => r.price)).sum })

/-- Lines 328–336: pass-through projection for the geospatial scatter. -/
def geo_points (t : Table) : List (Rat × Rat × String) :=
  t.map (fun r => (r.geolocation_lat, r.geolocation_lng, r.customer_city_y))

/-- `cluster_data` (lines 358–362): group by state, sum of price and distinct
order count. -/
def cluster_data (t : Table) : List (String × Rat × Nat) :=
  (dedupFirst (t.map (fun r => r.customer_state_y))).map (fun s =>
    let g := t.filter (fun r => r.customer_state_y = s)
    (s, (g.map (fun r => r.price)).sum, nunique (g.map (fun r => r.order_id))))

/-- The hour column produced by line 258, as consumed by the histogram. -/
def order_purchase_hour_col (t : Table) : List Int :=
  (purchase_hour_step t).filterMap (fun r => r.order_purchase_hour)

/-- The shipping-duration column produced by line 272, as consumed by the
histogram. -/
def shipping_time_col (t : Table) : List Int :=
  (shipping_time_step t).filterMap (fun r => r.shipping_time)

/-- Modelled from the spec (§4.3 step 6 wording, for refinement comparison
only — the source embedding is `shipping_time_val`): shipping duration as
carrier-delivered date minus customer-delivered date in whole days. -/
def spec_shipping_time_val (r : Row) : Option Int :=
  match r.order_delivered_customer_date, r.order_delivered_carrier_date with
  | some c, some k => some (dtDays (k - c))
  | _, _ => none

/-- The base (loader-provided) columns of a row — everything except the four
derived columns the script assigns later. -/
def baseCols (r : Row) :=
  (r.order_id, r.customer_id, r.customer_state_y, r.customer_city_x,
    r.customer_city_y, r.seller_city, r.product_category_name,
    r.product_category_name_english, r.order_status_x, r.payment_type,
    r.price, r.review_score, r.order_purchase_timestamp,
    r.order_delivered_carrier_date, r.order_delivered_customer_date,
    r.order_estimated_delivery_date, r.geolocation_lat, r.geolocation_lng)

/-- A concrete order record used to instantiate counterexamples and
witnesses. -/
def baseRow : Row where
  order_id := "o1"
  customer_id := "c1"
  customer_state_y := "SP"
  customer_city_x := "sao paulo"
  customer_city_y := "sao paulo"
  seller_city := "campinas"
  product_category_name := some "beleza_saude"
  product_category_name_english := some "health_beauty"
  order_status_x := "delivered"
  payment_type := "credit_card"
  price := 100
  review_score := some 5
  order_purchase_timestamp := some 0
  order_delivered_carrier_date := some 0
  order_delivered_customer_date := some 0
  order_estimated_delivery_date := some 0
  geolocation_lat := 0
  geolocation_lng := 0

/-- Concrete row for C1: handed to the carrier at time 0, delivered to the
customer five days later. -/
def rowC1 : Row :=
  { baseRow with
    order_delivered_carrier_date := some 0
    order_delivered_customer_date := some 432000 }

/-- Concrete second row for C4/C6: a different state, order and category. -/
def rowC4 : Row :=
  { baseRow with
    order_id := "o2"
    customer_state_y := "RJ"
    product_category_name := some "esporte_lazer" }

/-- Concrete row for C7: delivered exactly on the estimated date (delay 0). -/
def rowC7 : Row :=
  { baseRow with
    order_delivered_customer_date := some 0
    order_estimated_delivery_date := some 0 }

/-- Concrete two-row table for C8: one customer, two distinct orders, purchase
timestamps on days 1 and 2. -/
def tableC8 : Table :=
  [{ baseRow with
      customer_id := "cA"
      order_id := "oA"
      order_purchase_timestamp := some 86400 },
   { baseRow with
      customer_id := "cA"
      order_id := "oB"
      order_purchase_timestamp := some 172800 }]

/-- Concrete row for C9: a purchase at 01:00, so the hour column write is
visible. -/
def rowC9 : Row :=
  { baseRow with order_purchase_timestamp := some 3600 }

/-! ## Helper lemmas -/

theorem dedupFirstAux_mem {α : Type} [DecidableEq α] (seen l : List α) (a : α) :
    a ∈ dedupFirstAux seen l ↔ a ∈ l ∧ a ∉ seen := by
  induction l generalizing seen with
  | nil => simp [dedupFirstAux]
  | cons x xs ih =>
    by_cases hx : x ∈ seen
    · simp only [dedupFirstAux, hx, if_true, ih, List.mem_cons]
      constructor
      · rintro ⟨h1, h2⟩
        exact ⟨Or.inr h1, h2⟩
      · rintro ⟨h1 | h1, h2⟩
        · exact absurd (h1 ▸ hx) h2
        · exact ⟨h1, h2⟩
    · simp only [dedupFirstAux, hx, if_false, List.mem_cons, ih]
      constructor
      · rintro (rfl | ⟨h1, h2⟩)
        · exact ⟨Or.inl rfl, hx⟩
        · exact ⟨Or.inr h1, fun hs => h2 (by simp [hs])⟩
      · rintro ⟨ha, h2⟩
        by_cases hax : a = x
        · exact Or.inl hax
        · rcases ha with rfl | h1
          · exact absurd rfl hax
          · exact Or.inr ⟨h1, by simp [hax, h2]⟩

theorem dedupFirst_mem {α : Type} [DecidableEq α] (l : List α) (a : α) :
    a ∈ dedupFirst l ↔ a ∈ l := by
  simp [dedupFirst, dedupFirstAux_mem]

theorem dedupFirstAux_nodup {α : Type} [DecidableEq α] (seen l : List α) :
    (dedupFirstAux seen l).Nodup := by
  induction l generalizing seen with
  | nil => simp [dedupFirstAux]
  | cons x xs ih =>
    by_cases hx : x ∈ seen
    · simpa [dedupFirstAux, hx] using ih seen
    · simp only [dedupFirstAux, hx, if_false]
      refine List.nodup_cons.mpr ⟨?_, ih _⟩
      intro hmem
      exact ((dedupFirstAux_mem _ _ _).mp hmem).2 (List.mem_cons_self x seen)

theorem dedupFirst_nodup {α : Type} [DecidableEq α] (l : List α) :
    (dedupFirst l).Nodup :=
  dedupFirstAux_nodup [] l

theorem countP_notmem_split {α : Type} [DecidableEq α] (x : α) (seen : List α)
    (hx : x ∉ seen) (xs : List α) :
    xs.countP (fun a => a ∉ seen) =
      xs.count x + xs.countP (fun a => a ∉ x :: seen) := by
  induction xs with
  | nil => rfl
  | cons y ys ih =>
    simp only [List.countP_cons, List.count_cons]
    by_cases hyx : y = x
    · have h1 : (decide (y ∉ seen)) = true := by simp [hyx, hx]
      have h2 : (decide (y ∉ x :: seen)) = false := by simp [hyx]
      have h3 : (y == x) = true := by simp [hyx]
      have hone : (if true = true then (1 : Nat) else 0) = 1 := rfl
      have hzero : (if false = true then (1 : Nat) else 0) = 0 := rfl
      rw [h1, h2, h3, hone, hzero]
      omega
    · have h2 : (decide (y ∉ x :: seen)) = decide (y ∉ seen) := by
        simp [List.mem_cons, hyx]
      have h3 : (y == x) = false := by simp [hyx]
      have hzero : (if false = true then (1 : Nat) else 0) = 0 := rfl
      rw [h2, h3, hzero]
      omega

theorem sum_counts_dedupFirstAux {α : Type} [DecidableEq α] (l : List α) :
    ∀ seen, ((dedupFirstAux seen l).map (fun k => l.count k)).sum =
      l.countP (fun a => a ∉ seen) := by
  induction l with
  | nil => intro seen; rfl
  | cons x xs ih =>
    intro seen
    by_cases hx : x ∈ seen
    · simp only [dedupFirstAux, hx, if_true]
      have hcongr : (dedupFirstAux seen xs).map (fun k => (x :: xs).count k) =
          (dedupFirstAux seen xs).map (fun k => xs.count k) := by
        apply List.map_congr_left
        intro k hk
        have hks := (dedupFirstAux_mem _ _ _).mp hk
        have hkx : k ≠ x := fun h => hks.2 (h ▸ hx)
        exact List.count_cons_of_ne hkx xs
      rw [hcongr, ih seen, List.countP_cons]
      have hd : (decide (x ∉ seen)) = false := by simp [hx]
      rw [hd]
      simp
    · simp only [dedupFirstAux, hx, if_false, List.map_cons, List.sum_cons]
      have hcongr : (dedupFirstAux (x :: seen) xs).map (fun k => (x :: xs).count k) =
          (dedupFirstAux (x :: seen) xs).map (fun k => xs.count k) := by
        apply List.map_congr_left
        intro k hk
        have hks := (dedupFirstAux_mem _ _ _).mp hk
        have hkx : k ≠ x := fun h => hks.2 (h ▸ List.mem_cons_self x seen)
        exact List.count_cons_of_ne hkx xs
      rw [hcongr, ih (x :: seen), List.count_cons_self, List.countP_cons]
      have hd : (decide (x ∉ seen)) = true := by simp [hx]
      rw [hd]
      have hsplit := countP_notmem_split x seen hx xs
      simp only [if_true]
      omega

theorem sum_counts_dedupFirst {α : Type} [DecidableEq α] (l : List α) :
    ((dedupFirst l).map (fun k => l.count k)).sum = l.length := by
  rw [dedupFirst, sum_counts_dedupFirstAux l []]
  refine List.countP_eq_length.mpr ?_
  intro a _
  simp

theorem insertCountDesc_perm {α : Type} (x : α × Nat) (l : List (α × Nat)) :
    (insertCountDesc x l).Perm (x :: l) := by
  induction l with
  | nil => exact List.Perm.refl _
  | cons y ys ih =>
    rw [insertCountDesc]
    by_cases h : x.2 ≤ y.2
    · simp only [h, if_true]
      exact (ih.cons y).trans (List.Perm.swap x y ys)
    · simp only [h, if_false]
      exact List.Perm.refl _

theorem insertCountDesc_sorted {α : Type} (x : α × Nat) (l : List (α × Nat))
    (h : l.Pairwise (fun a b => b.2 ≤ a.2)) :
    (insertCountDesc x l).Pairwise (fun a b => b.2 ≤ a.2) := by
  induction l with
  | nil => simp [insertCountDesc]
  | cons y ys ih =>
    rw [insertCountDesc]
    rcases List.pairwise_cons.mp h with ⟨hy, hys⟩
    by_cases hxy : x.2 ≤ y.2
    · simp only [hxy, if_true]
      refine List.pairwise_cons.mpr ⟨?_, ih hys⟩
      intro z hz
      have hz' : z ∈ x :: ys := (insertCountDesc_perm x ys).mem_iff.mp hz
      rcases List.mem_cons.mp hz' with rfl | hz''
      · exact hxy
      · exact hy z hz''
    · simp only [hxy, if_false]
      refine List.pairwise_cons.mpr ⟨?_, h⟩
      intro z hz
      rcases List.mem_cons.mp hz with rfl | hz'
      · omega
      · have := hy z hz'
        omega

theorem insertCountDesc_filter_stable {α : Type} (x : α × Nat) (l : List (α × Nat))
    (h : l.Pairwise (fun a b => b.2 ≤ a.2)) (c : Nat) :
    (insertCountDesc x l).filter (fun p => p.2 = c) =
      if x.2 = c then l.filter (fun p => p.2 = c) ++ [x]
      else l.filter (fun p => p.2 = c) := by
  induction l with
  | nil =>
    by_cases hx : x.2 = c <;> simp [insertCountDesc, List.filter_cons, hx]
  | cons y ys ih =>
    rw [insertCountDesc]
    rcases List.pairwise_cons.mp h with ⟨hy, hys⟩
    by_cases hxy : x.2 ≤ y.2
    · simp only [hxy, if_true]
      by_cases hyc : y.2 = c
      · by_cases hxc : x.2 = c <;>
          simp [List.filter_cons, hyc, hxc, ih hys]
      · by_cases hxc : x.2 = c <;>
          simp [List.filter_cons, hyc, hxc, ih hys]
    · simp only [hxy, if_false]
      by_cases hxc : x.2 = c
      · simp only [hxc, if_true]
        have hnil : (y :: ys).filter (fun p => p.2 = c) = [] := by
          rw [List.filter_eq_nil_iff]
          intro z hz
          have hzy : z.2 ≤ y.2 := by
            rcases List.mem_cons.mp hz with rfl | hz'
            · exact Nat.le_refl _
            · exact hy z hz'
          simp only [decide_eq_true_eq]
          omega
        rw [hnil, List.nil_append, List.filter_cons]
        simp [hxc, hnil]
      · simp [List.filter_cons, hxc]

theorem foldl_insert_sorted {α : Type} (l acc : List (α × Nat))
    (h : acc.Pairwise (fun a b => b.2 ≤ a.2)) :
    (l.foldl (fun a x => insertCountDesc x a) acc).Pairwise (fun a b => b.2 ≤ a.2) := by
  induction l generalizing acc with
  | nil => exact h
  | cons x xs ih => exact ih _ (insertCountDesc_sorted x acc h)

theorem foldl_insert_perm {α : Type} (l acc : List (α × Nat)) :
    (l.foldl (fun a x => insertCountDesc x a) acc).Perm (acc ++ l) := by
  induction l generalizing acc with
  | nil => simp
  | cons x xs ih =>
    refine (ih (insertCountDesc x acc)).trans ?_
    have h1 : (insertCountDesc x acc ++ xs).Perm ((x :: acc) ++ xs) :=
      (insertCountDesc_perm x acc).append_right xs
    refine h1.trans ?_
    simpa using List.perm_middle.symm

theorem foldl_insert_filter_stable {α : Type} (l acc : List (α × Nat))
    (h : acc.Pairwise (fun a b => b.2 ≤ a.2)) (c : Nat) :
    (l.foldl (fun a x => insertCountDesc x a) acc).filter (fun p => p.2 = c) =
      acc.filter (fun p => p.2 = c) ++ l.filter (fun p => p.2 = c) := by
  induction l generalizing acc with
  | nil => simp
  | cons x xs ih =>
    rw [List.foldl_cons, ih _ (insertCountDesc_sorted x acc h),
      insertCountDesc_filter_stable x acc h c]
    by_cases hxc : x.2 = c <;> simp [List.filter_cons, hxc]

theorem sortCountDesc_sorted {α : Type} (l : List (α × Nat)) :
    (sortCountDesc l).Pairwise (fun a b => b.2 ≤ a.2) :=
  foldl_insert_sorted l [] (List.Pairwise.nil)

theorem sortCountDesc_perm {α : Type} (l : List (α × Nat)) :
    (sortCountDesc l).Perm l := by
  simpa using foldl_insert_perm l []

theorem sortCountDesc_filter_stable {α : Type} (l : List (α × Nat)) (c : Nat) :
    (sortCountDesc l).filter (fun p => p.2 = c) = l.filter (fun p => p.2 = c) := by
  simpa using foldl_insert_filter_stable l [] (List.Pairwise.nil) c

theorem value_counts_sorted {α : Type} [DecidableEq α] (vals : List (Option α)) :
    (value_counts vals).Pairwise (fun a b => b.2 ≤ a.2) :=
  sortCountDesc_sorted _

theorem value_counts_perm {α : Type} [DecidableEq α] (vals : List (Option α)) :
    (value_counts vals).Perm
      ((dedupFirst (vals.filterMap id)).map
        (fun k => (k, (vals.filterMap id).count k))) :=
  sortCountDesc_perm _

theorem value_counts_mem {α : Type} [DecidableEq α] (vals : List (Option α))
    (p : α × Nat) (hp : p ∈ value_counts vals) :
    some p.1 ∈ vals ∧ p.2 = (vals.filterMap id).count p.1 ∧ 0 < p.2 := by
  have hp' := (value_counts_perm vals).mem_iff.mp hp
  rcases List.mem_map.mp hp' with ⟨k, hk, rfl⟩
  have hkpresent : k ∈ vals.filterMap id := (dedupFirst_mem _ k).mp hk
  refine ⟨?_, rfl, ?_⟩
  · rcases List.mem_filterMap.mp hkpresent with ⟨a, ha, hak⟩
    cases a with
    | none => cases hak
    | some b => cases hak; exact ha
  · exact List.count_pos_iff.mpr hkpresent

theorem value_counts_sum {α : Type} [DecidableEq α] (vals : List (Option α)) :
    ((value_counts vals).map Prod.snd).sum = (vals.filterMap id).length := by
  have h1 := ((value_counts_perm vals).map Prod.snd).sum_eq
  rw [h1, List.map_map]
  exact sum_counts_dedupFirst (vals.filterMap id)

theorem sum_take_le_sum (l : List Nat) (n : Nat) : (l.take n).sum ≤ l.sum := by
  calc (l.take n).sum ≤ (l.take n).sum + (l.drop n).sum := Nat.le_add_right _ _
    _ = ((l.take n) ++ (l.drop n)).sum := (List.sum_append).symm
    _ = l.sum := by rw [List.take_append_drop]

theorem dtDays_nonneg (td : Int) (h : 0 ≤ td) : 0 ≤ dtDays td :=
  Int.fdiv_nonneg h (by norm_num [secPerDay])

theorem dtDays_of_range (d r : Int) (h0 : 0 ≤ r) (h1 : r < secPerDay) :
    dtDays (secPerDay * d + r) = d := by
  unfold dtDays
  rw [Int.fdiv_eq_ediv _ (by norm_num [secPerDay]), Int.add_comm,
    Int.add_mul_ediv_left r d (by norm_num [secPerDay]),
    Int.ediv_eq_zero_of_lt h0 h1, Int.zero_add]

theorem meanInt_eq_none_iff (xs : List Int) : meanInt xs = none ↔ xs = [] := by
  unfold meanInt
  by_cases h : xs.isEmpty
  · simp [h, List.isEmpty_iff.mp h]
  · simp only [h, if_false]
    simp [List.isEmpty_iff] at h
    simp [h]

/-! ## Claims -/

/-- C1 counterexample: a row handed to the carrier at time 0 and delivered to
the customer five days (432000 s) later.  Line 272 computes
customer-delivered minus carrier-delivered, giving +5 days; the claimed
carrier-minus-customer order (`spec_shipping_time_val`) would give −5. -/
theorem C1_counterexample :
    shipping_time_val rowC1 = some 5 ∧
    spec_shipping_time_val rowC1 = some (-5) ∧
    shipping_time_val rowC1 ≠ spec_shipping_time_val rowC1 := by
  refine ⟨by decide, by decide, by decide⟩

/-- C1 (amended): the Shipping Duration derivation computes, per row,
(customer-delivered date − carrier-delivered date) in whole days — customer
minus carrier, the opposite order from the claim — so whenever the carrier
handoff precedes the customer delivery the value is non-negative. -/
theorem C1_shipping_subtraction (r : Row) (c k : Int)
    (hc : r.order_delivered_customer_date = some c)
    (hk : r.order_delivered_carrier_date = some k)
    (hkc : k ≤ c) :
    shipping_time_val r = some (dtDays (c - k)) ∧ 0 ≤ dtDays (c - k) := by
  constructor
  · unfold shipping_time_val
    rw [hc, hk]
  · exact dtDays_nonneg _ (by omega)

/-- Witness for C1 at `rowC1`. -/
theorem C1_shipping_subtraction_witness :
    rowC1.order_delivered_customer_date = some 432000 ∧
    rowC1.order_delivered_carrier_date = some 0 ∧ (0 : Int) ≤ 432000 ∧
    (shipping_time_val rowC1 = some (dtDays (432000 - 0)) ∧
      0 ≤ dtDays (432000 - 0)) :=
  ⟨rfl, rfl, by decide, C1_shipping_subtraction rowC1 432000 0 rfl rfl (by decide)⟩

/-- C10: the whole-day conversion shared by shipping duration
(`shipping_time_val`), delivery delay (`delivery_delay_val`) and Recency
(`rfm`) floors toward negative infinity: on any duration `secPerDay * d + r`
with remainder `0 ≤ r < secPerDay` it returns `d`; hence a delivery up to (but
not including) 24 h after the estimate has delay 0 and is categorized
"On Time", while a delivery 12 h (43200 s) early has delay −1 (truncation
toward zero would give 0). -/
theorem C10_whole_day_floor (d r est t : Int) (h0 : 0 ≤ r) (h1 : r < secPerDay)
    (he0 : est ≤ t) (he1 : t < est + secPerDay) :
    dtDays (secPerDay * d + r) = d ∧
    dtDays (t - est) = 0 ∧
    cutDeliveryCategory (some (dtDays (t - est))) = some "On Time" ∧
    dtDays (-43200) = -1 := by
  have hz : dtDays (t - est) = 0 := by
    have := dtDays_of_range 0 (t - est) (by omega) (by omega)
    simpa using this
  refine ⟨dtDays_of_range d r h0 h1, hz, ?_, by decide⟩
  rw [hz]
  decide

/-- Witness for C10 at `d = 3`, `r = 100`, `est = 0`, `t = 50000`. -/
theorem C10_whole_day_floor_witness :
    (0 : Int) ≤ 100 ∧ (100 : Int) < secPerDay ∧ (0 : Int) ≤ 50000 ∧
    (50000 : Int) < 0 + secPerDay ∧
    (dtDays (secPerDay * 3 + 100) = 3 ∧
      dtDays (50000 - 0) = 0 ∧
      cutDeliveryCategory (some (dtDays (50000 - 0))) = some "On Time" ∧
      dtDays (-43200) = -1) :=
  ⟨by decide, by decide, by decide, by decide,
    C10_whole_day_floor 3 100 0 50000 (by decide) (by decide) (by decide) (by decide)⟩

/-- C3: the Delivery Category of every row of the advanced-analysis step is
`cutDeliveryCategory` of its delay, and the label is determined by
delay ≤ 0 → "On Time"; 0 < delay ≤ 2 → "Delayed 1-2 Days";
delay > 2 → "Delayed More Than 2 Days"; a null delay gets a null category;
in particular delays 0, 1, 2, 3, −5 map to On Time, Delayed 1-2 Days,
Delayed 1-2 Days, Delayed More Than 2 Days, On Time. -/
theorem C3_delivery_category_thresholds :
    (∀ t : Table, ∀ r ∈ advanced_step t,
      r.delivery_category = cutDeliveryCategory r.delivery_delay) ∧
    (∀ d : Int, d ≤ 0 → cutDeliveryCategory (some d) = some "On Time") ∧
    (∀ d : Int, 0 < d → d ≤ 2 →
      cutDeliveryCategory (some d) = some "Delayed 1-2 Days") ∧
    (∀ d : Int, 2 < d →
      cutDeliveryCategory (some d) = some "Delayed More Than 2 Days") ∧
    cutDeliveryCategory none = none ∧
    cutDeliveryCategory (some 0) = some "On Time" ∧
    cutDeliveryCategory (some 1) = some "Delayed 1-2 Days" ∧
    cutDeliveryCategory (some 2) = some "Delayed 1-2 Days" ∧
    cutDeliveryCategory (some 3) = some "Delayed More Than 2 Days" ∧
    cutDeliveryCategory (some (-5)) = some "On Time" := by
  refine ⟨?_, ?_, ?_, ?_, rfl, by decide, by decide, by decide, by decide, by decide⟩
  · intro t r hr
    rcases List.mem_map.mp hr with ⟨r₀, _, rfl⟩
    rfl
  · intro d h
    simp [cutDeliveryCategory, h]
  · intro d h1 h2
    have h1' : ¬d ≤ 0 := by omega
    simp [cutDeliveryCategory, h1', h2]
  · intro d h
    have h1' : ¬d ≤ 0 := by omega
    have h2' : ¬d ≤ 2 := by omega
    simp [cutDeliveryCategory, h1', h2']

/-- Witness for C3 at delay 1. -/
theorem C3_delivery_category_thresholds_witness :
    (0 : Int) < 1 ∧ (1 : Int) ≤ 2 ∧
    cutDeliveryCategory (some 1) = some "Delayed 1-2 Days" :=
  ⟨by decide, by decide,
    C3_delivery_category_thresholds.2.2.1 1 (by decide) (by decide)⟩

/-- C4: if the allowed-values set passed to the Filter Engine equals the full
distinct value set of the filtered column (the default UI state,
`unique()` of the column), the filter is the identity transform: the output
is the input row-for-row, order preserved, nothing dropped or deduplicated. -/
theorem C4_full_filter_identity {α : Type} [DecidableEq α] (t : Table)
    (col : Row → α) (allowed : List α)
    (h : allowed = dedupFirst (t.map col)) :
    filterEngine t col allowed = t := by
  unfold filterEngine
  rw [List.filter_eq_self]
  intro r hr
  subst h
  simp only [decide_eq_true_eq]
  exact (dedupFirst_mem _ _).mpr (List.mem_map_of_mem col hr)

/-- Witness for C4 on a two-row, two-state table. -/
theorem C4_full_filter_identity_witness :
    (["SP", "RJ"] : List String) =
      dedupFirst ([baseRow, rowC4].map (fun r => r.customer_state_y)) ∧
    filterEngine [baseRow, rowC4] (fun r => r.customer_state_y) ["SP", "RJ"] =
      [baseRow, rowC4] :=
  ⟨by decide, C4_full_filter_identity _ _ _ (by decide)⟩

/-- C2 counterexample: on the column `["7", missing, "abc"]`, `astype('Int64')`
parses the `7` and nulls the missing cell, but the non-numeric cell `"abc"`
makes the conversion raise instead of being coerced to null. -/
theorem C2_counterexample :
    astypeInt64 [some "7", none, some "abc"] = .error "abc" := by
  rfl

/-- C2 (amended): `astype('Int64')` preserves nullability distinct from zero —
a missing cell becomes null and an integer-literal cell becomes its value —
and it never raises on a column whose present cells all parse as integers;
but a non-numeric present cell raises (a strict cast, unlike
`to_numeric(errors='coerce')`). -/
theorem C2_astype_nullability (col : List (Option String))
    (h : ∀ c ∈ col, c.all (fun s => (parseIntToken s).isSome) = true) :
    astypeInt64 col = .ok (col.map (fun c => c.bind parseIntToken)) ∧
    ∀ c ∈ col, (c.bind parseIntToken = none ↔ c = none) := by
  constructor
  · induction col with
    | nil => rfl
    | cons c cs ih =>
      have hcs : ∀ c' ∈ cs, c'.all (fun s => (parseIntToken s).isSome) = true :=
        fun c' hc' => h c' (List.mem_cons_of_mem _ hc')
      cases c with
      | none =>
        simp only [astypeInt64, astypeInt64Cell, ih hcs, List.map_cons, Option.bind]
      | some s =>
        have hs : (parseIntToken s).isSome = true := by
          simpa [Option.all] using h (some s) (List.mem_cons_self _ _)
        rcases Option.isSome_iff_exists.mp hs with ⟨n, hn⟩
        simp only [astypeInt64, astypeInt64Cell, hn, ih hcs, List.map_cons,
          Option.bind, Option.some_bind]
  · intro c hc
    cases c with
    | none => simp
    | some s =>
      have hs : (parseIntToken s).isSome = true := by
        simpa [Option.all] using h (some s) hc
      rcases Option.isSome_iff_exists.mp hs with ⟨n, hn⟩
      simp [hn]

/-- Witness for C2 on the all-numeric column `["3", missing, "0"]`: `"0"`
parses to zero while the missing cell stays null. -/
theorem C2_astype_nullability_witness :
    (∀ c ∈ ([some "3", none, some "0"] : List (Option String)),
      c.all (fun s => (parseIntToken s).isSome) = true) ∧
    (astypeInt64 [some "3", none, some "0"] =
      .ok (([some "3", none, some "0"] : List (Option String)).map
        (fun c => c.bind parseIntToken)) ∧
      ∀ c ∈ ([some "3", none, some "0"] : List (Option String)),
        (c.bind parseIntToken = none ↔ c = none)) :=
  ⟨by decide, C2_astype_nullability [some "3", none, some "0"] (by decide)⟩

/-- C5 counterexample: on the empty filtered table, the delivery-category mean
derivation does not return an empty result table — the group-by on the
`pd.cut` categorical keeps one row per fixed label (pandas `observed=False`
default), each with a null mean. -/
theorem C5_counterexample :
    average_review_scores ([] : Table) =
      [("On Time", none), ("Delayed 1-2 Days", none),
        ("Delayed More Than 2 Days", none)] ∧
    average_review_scores ([] : Table) ≠ [] := by
  exact ⟨rfl, by decide⟩

/-- C5 (amended): an empty allowed-values set filters every table to the empty
table (not an error), and on the empty table every derivation is total and
returns its empty result — zero summary metrics and empty result tables —
except the delivery-category mean, whose group-by on the `pd.cut` categorical
returns one row per fixed label with a null mean even on empty input. -/
theorem C5_empty_filter_empty_results :
    (∀ t : Table, df_filtered t [] = []) ∧
    total_orders [] = 0 ∧
    total_revenue [] = 0 ∧
    daily_orders [] = [] ∧
    daily_revenue [] = [] ∧
    top10_product_categories [] = [] ∧
    top10_seller_cities [] = [] ∧
    order_purchase_hour_col [] = [] ∧
    shipping_time_col [] = [] ∧
    (∀ now : Int, rfm now [] = []) ∧
    geo_points [] = [] ∧
    cluster_data [] = [] ∧
    review_summary [] = [] ∧
    average_review_scores [] = deliveryLabels.map (fun lab => (lab, none)) := by
  refine ⟨?_, rfl, rfl, rfl, rfl, rfl, rfl, rfl, rfl, fun now => rfl, rfl, rfl,
    rfl, rfl⟩
  intro t
  simp [df_filtered, filterEngine]

/-- Witness for C5: the empty state selection empties a concrete one-row
table. -/
theorem C5_empty_filter_empty_results_witness :
    df_filtered [baseRow] [] = [] :=
  C5_empty_filter_empty_results.1 [baseRow]

/-- C9 counterexample: the purchase-hour derivation (line 258) writes the
`order_purchase_hour` column into the shared filtered table — the table after
the assignment differs from the table it received. -/
theorem C9_counterexample :
    purchase_hour_step [rowC9] ≠ [rowC9] := by
  decide

/-- C6: for every categorical column and every N, the Top-N Frequency result
(`value_counts().head(N)`) (i) has length ≤ N, (ii) is ordered by occurrence
count descending, (iii) contains only values present (non-null) in the column,
each with a positive count, (iv) has counts summing to at most the number of
rows with a non-null value, and (v) keeps ties in first-encountered-value
order: restricted to any one count value, the sorted table equals the
first-encounter enumeration of keys with that count. -/
theorem C6_top_counts_spec {α : Type} [DecidableEq α] (t : Table)
    (col : Row → Option α) (n : Nat) :
    (top_counts t col n).length ≤ n ∧
    (top_counts t col n).Pairwise (fun a b => b.2 ≤ a.2) ∧
    (∀ p ∈ top_counts t col n, (∃ r ∈ t, col r = some p.1) ∧ 0 < p.2) ∧
    ((top_counts t col n).map Prod.snd).sum ≤ ((t.map col).filterMap id).length ∧
    (∀ c : Nat, (value_counts (t.map col)).filter (fun p => p.2 = c) =
      ((dedupFirst ((t.map col).filterMap id)).map
        (fun k => (k, ((t.map col).filterMap id).count k))).filter
        (fun p => p.2 = c)) := by
  refine ⟨?_, ?_, ?_, ?_, ?_⟩
  · rw [top_counts, List.length_take]
    exact Nat.min_le_left _ _
  · exact List.Pairwise.sublist (List.take_sublist n _) (value_counts_sorted _)
  · intro p hp
    have hp' : p ∈ value_counts (t.map col) := List.mem_of_mem_take hp
    obtain ⟨hmem, _, hpos⟩ := value_counts_mem _ p hp'
    refine ⟨?_, hpos⟩
    rcases List.mem_map.mp hmem with ⟨r, hr, hcol⟩
    exact ⟨r, hr, hcol⟩
  · calc ((top_counts t col n).map Prod.snd).sum
        = (((value_counts (t.map col)).map Prod.snd).take n).sum := by
          rw [top_counts, List.map_take]
      _ ≤ ((value_counts (t.map col)).map Prod.snd).sum := sum_take_le_sum _ n
      _ = ((t.map col).filterMap id).length := value_counts_sum _
  · intro c
    simp only [value_counts]
    exact sortCountDesc_filter_stable _ c

/-- Witness for C6: the Top-1 table of the product-category column of a
two-row table has at most one row. -/
theorem C6_top_counts_spec_witness :
    (top_counts [baseRow, rowC4] (fun r => r.product_category_name) 1).length ≤ 1 :=
  (C6_top_counts_spec [baseRow, rowC4] (fun r => r.product_category_name) 1).1

/-- C7 counterexample: one row delivered exactly on time.  The
delivery-category mean table still carries the key "Delayed 1-2 Days" — the
group-by on the `pd.cut` categorical includes every fixed label of the dtype —
although no row of the table contributes to that group. -/
theorem C7_counterexample :
    ("Delayed 1-2 Days", (none : Option Rat)) ∈
      average_review_scores (advanced_step [rowC7]) ∧
    (advanced_step [rowC7]).filter
      (fun r => r.delivery_category = some "Delayed 1-2 Days") = [] := by
  exact ⟨by decide, by decide⟩

/-- C7 (amended): in the status × payment mean (`review_summary`, object-dtype
keys) every group key in the result has a contributing row and its mean is
non-null — a mean over an empty group never occurs there; in the
delivery-category mean (`average_review_scores`) the keys are the three fixed
`pd.cut` labels whether observed or not, so an unobserved label appears with
an empty group — rendered as a null mean, not a division by zero — and
whenever the mean is non-null the label does have a contributing row. -/
theorem C7_group_keys (t : Table) :
    (∀ s pt m, (s, pt, m) ∈ review_summary t →
      (∃ r ∈ t, r.review_score ≠ none ∧ r.order_status_x = s ∧
        r.payment_type = pt) ∧ m ≠ none) ∧
    (∀ lab m, (lab, m) ∈ average_review_scores t → m ≠ none →
      ∃ r ∈ t, r.delivery_category = some lab ∧ r.review_score ≠ none) := by
  constructor
  · intro s pt m hmem
    simp only [review_summary] at hmem
    rcases List.mem_map.mp hmem with ⟨k, hk, hkeq⟩
    have hks : k.1 = s := congrArg (fun p => p.1) hkeq
    have hkpt : k.2 = pt := congrArg (fun p => p.2.1) hkeq
    have hkm : m = meanInt
        (((t.filter (fun r => r.review_score ≠ none)).filter
          (fun r => r.order_status_x = k.1 ∧ r.payment_type = k.2)).filterMap
          (fun r => r.review_score)) := (congrArg (fun p => p.2.2) hkeq).symm
    have hk' := (dedupFirst_mem _ k).mp hk
    rcases List.mem_map.mp hk' with ⟨r, hrnn, hrk⟩
    have hrt : r ∈ t := (List.mem_filter.mp hrnn).1
    have hrscore : r.review_score ≠ none := by
      have := (List.mem_filter.mp hrnn).2
      simpa using this
    have hrs : r.order_status_x = s := by rw [← hks, ← hrk]
    have hrpt : r.payment_type = pt := by rw [← hkpt, ← hrk]
    refine ⟨⟨r, hrt, hrscore, hrs, hrpt⟩, ?_⟩
    rcases Option.ne_none_iff_exists'.mp hrscore with ⟨v, hv⟩
    have hrin : r ∈ (t.filter (fun r => r.review_score ≠ none)).filter
        (fun r => r.order_status_x = k.1 ∧ r.payment_type = k.2) := by
      refine List.mem_filter.mpr ⟨hrnn, ?_⟩
      rw [← hrk]
      simp
    have hvin : v ∈ ((t.filter (fun r => r.review_score ≠ none)).filter
        (fun r => r.order_status_x = k.1 ∧ r.payment_type = k.2)).filterMap
        (fun r => r.review_score) :=
      List.mem_filterMap.mpr ⟨r, hrin, hv⟩
    intro hnone
    rw [hkm] at hnone
    rw [meanInt_eq_none_iff] at hnone
    rw [hnone] at hvin
    exact List.not_mem_nil v hvin
  · intro lab m hmem hne
    simp only [average_review_scores] at hmem
    rcases List.mem_map.mp hmem with ⟨lab', _, hkeq⟩
    have hlab : lab' = lab := congrArg (fun p => p.1) hkeq
    have hm : m = meanInt ((t.filter
        (fun r => r.delivery_category = some lab')).filterMap
        (fun r => r.review_score)) := (congrArg (fun p => p.2) hkeq).symm
    have hnonnil : ((t.filter (fun r => r.delivery_category = some lab')).filterMap
        (fun r => r.review_score)) ≠ [] := by
      intro hnil
      apply hne
      rw [hm, meanInt_eq_none_iff]
      exact hnil
    rcases List.exists_mem_of_ne_nil _ hnonnil with ⟨v, hv⟩
    rcases List.mem_filterMap.mp hv with ⟨r, hrf, hrv⟩
    have hrt : r ∈ t := (List.mem_filter.mp hrf).1
    have hrc : r.delivery_category = some lab := by
      have := (List.mem_filter.mp hrf).2
      rw [← hlab]
      simpa using this
    exact ⟨r, hrt, hrc, by simp [hrv]⟩

/-- Witness for C7: on the one-row table, the status × payment mean has the
single observed key with a non-null mean (the mean of the one score 5). -/
theorem C7_group_keys_witness :
    ("delivered", "credit_card", meanInt [(5 : Int)]) ∈ review_summary [rowC7] ∧
    ((∃ r ∈ [rowC7], r.review_score ≠ none ∧ r.order_status_x = "delivered" ∧
      r.payment_type = "credit_card") ∧ meanInt [(5 : Int)] ≠ none) :=
  ⟨List.mem_singleton.mpr rfl,
    (C7_group_keys [rowC7]).1 "delivered" "credit_card" (meanInt [(5 : Int)])
      (List.mem_singleton.mpr rfl)⟩

/-- C8: with a fixed evaluation instant `now`, on any table all of whose
parsed purchase timestamps are ≤ `now`, every RFM record has non-negative
Recency (whole days from the customer's most recent purchase to `now`) and
Frequency equal to the distinct `order_id` count over that customer's rows. -/
theorem C8_rfm (now : Int) (t : Table)
    (h : ∀ r ∈ t, r.order_purchase_timestamp.all (fun ts => ts ≤ now) = true) :
    ∀ e ∈ rfm now t,
      (∀ v, e.recency = some v → 0 ≤ v) ∧
      e.frequency =
        nunique ((t.filter (fun r => r.customer_id = e.customer_id)).map
          (fun r => r.order_id)) := by
  intro e he
  simp only [rfm] at he
  rcases List.mem_map.mp he with ⟨c, _, rfl⟩
  refine ⟨?_, rfl⟩
  intro v hv
  rcases Option.map_eq_some'.mp hv with ⟨m, hm, hveq⟩
  have hmem : m ∈ (t.filter (fun r => r.customer_id = c)).filterMap
      (fun r => r.order_purchase_timestamp) :=
    List.max?_mem max_choice hm
  rcases List.mem_filterMap.mp hmem with ⟨r, hr, hts⟩
  have hrt : r ∈ t := (List.mem_filter.mp hr).1
  have hmn : m ≤ now := by
    have hall := h r hrt
    rw [hts] at hall
    simpa using hall
  rw [← hveq]
  exact dtDays_nonneg _ (by omega)

/-- Witness for C8 on the two-row, one-customer table with `now` at day 10. -/
theorem C8_rfm_witness :
    (∀ r ∈ tableC8, r.order_purchase_timestamp.all (fun ts => ts ≤ 864000) = true) ∧
    (∀ e ∈ rfm 864000 tableC8,
      (∀ v, e.recency = some v → 0 ≤ v) ∧
      e.frequency =
        nunique ((tableC8.filter (fun r => r.customer_id = e.customer_id)).map
          (fun r => r.order_id))) :=
  ⟨by decide, C8_rfm 864000 tableC8 (by decide)⟩

/-- C9 (amended): not every derivation leaves the filtered table untouched:
the purchase-hour, shipping-duration and delivery-delay/category derivations
assign derived columns into the shared `df_filtered` in place (and the
delivery-category column written by `advanced_step` is what
`average_review_scores` groups on); the mutation is limited to those derived
columns — each step preserves every base column row-for-row and the row
count. -/
theorem C9_steps_preserve_base (t : Table) :
    (purchase_hour_step t).map baseCols = t.map baseCols ∧
    (shipping_time_step t).map baseCols = t.map baseCols ∧
    (advanced_step t).map baseCols = t.map baseCols ∧
    (purchase_hour_step t).length = t.length ∧
    (shipping_time_step t).length = t.length ∧
    (advanced_step t).length = t.length := by
  refine ⟨?_, ?_, ?_, ?_, ?_, ?_⟩ <;>
    simp [purchase_hour_step, shipping_time_step, advanced_step, baseCols,
      List.map_map, Function.comp]

/-- Witness for C9 at a concrete one-row table. -/
theorem C9_steps_preserve_base_witness :
    (advanced_step [rowC9]).map baseCols = [rowC9].map baseCols :=
  (C9_steps_preserve_base [rowC9]).2.2.1

end Dashboard
